import Mathlib

set_option maxRecDepth 100000

/-!
Shallow embedding of `src/simple_bridge.py` (BitShares liquidity-pool
exchange-rate calculator).

Modelling choices, stated once here:

* Python `Decimal` values are modelled as exact rationals (`ℚ`).  The
  source sets `getcontext().prec = 28`, so real `Decimal` division rounds
  results to 28 significant digits; the exact-rational model agrees with
  the code whenever every intermediate result fits in 28 significant
  digits, which holds for all inputs considered below.
* `Decimal(string)` conversion is modelled by `decimalOfString`,
  following CPython: strip leading/trailing whitespace, remove
  underscores, then parse a finite numeric literal (optional sign,
  digits, optional fractional point, optional exponent) to its exact
  value.  An unparseable string makes `Decimal` raise
  `InvalidOperation`; that uncaught exception is modelled as `none` in
  an outer `Option` layer.  The model is exact against CPython on
  printable-ASCII-and-whitespace strings apart from the non-finite
  `Infinity`/`NaN` forms; theorems that conclude anything from a parse
  failure therefore restrict their input by `finiteNumeralChar`, and
  theorems about the `.strip().upper()` asset normalization restrict
  theirs by `plainAsciiChar`.  All other uses are of the sound `some`
  direction, on which the model never accepts a string CPython rejects
  or disagrees on a value.
* A pool record (the JSON object `result[0]`) is an association list of
  string keys to string values; Python dict truthiness is list
  non-emptiness and `dict.get(key, default)` is `dictGet`.
* Network endpoints are modelled by the observable outcome of the one
  HTTP POST the code makes to each: a transport error (any `requests`
  exception, including timeout), or an HTTP response with a status code
  and an optional parsed JSON body (`none` = `response.json()` raised).
-/

/-- Digit-string to natural number, most significant digit first:
the value of `int`/`Decimal` digit parsing on a list of `0`-`9` chars. -/
def digitsToNat (cs : List Char) : ℕ :=
  cs.foldl (fun n c => 10 * n + (c.toNat - 48)) 0

/-- The ASCII characters Python's `str.strip()` removes: code points
9-13 (tab, newline, vertical tab, form feed, carriage return), the
separators 28-31 and the space 32.  `str.strip()` also removes some
non-ASCII Unicode whitespace, so theorems that rely on the stripping
behavior carry an ASCII-input hypothesis. -/
def pyStripChar (c : Char) : Bool :=
  (9 ≤ c.toNat && c.toNat ≤ 13) || (28 ≤ c.toNat && c.toNat ≤ 31) ||
    c.toNat = 32

/-- Python `str.strip()` on a character list (ASCII fragment): drop the
stripped characters from both ends. -/
def pyStrip (cs : List Char) : List Char :=
  ((cs.dropWhile pyStripChar).reverse.dropWhile pyStripChar).reverse

/-- The digits of an exponent, after its optional sign: `digits+`. -/
def parseExpNat (cs : List Char) : Option ℕ :=
  if !cs.isEmpty && cs.all Char.isDigit then some (digitsToNat cs)
  else none

/-- The exponent suffix of a numeric string: `[+-]? digits+`. -/
def parseExpDigits (cs : List Char) : Option ℤ :=
  match cs with
  | [] => none
  | c :: t =>
    if c = '-' then (parseExpNat t).map (fun n => -(n : ℤ))
    else if c = '+' then (parseExpNat t).map (fun n => (n : ℤ))
    else (parseExpNat cs).map (fun n => (n : ℤ))

/-- What may follow the mantissa of a numeric string: nothing, or a
case-insensitive exponent marker followed by `parseExpDigits`.
`hasDigit` carries the grammar's requirement of at least one digit in
the integer or fractional part. -/
def parseAfterMantissa (m : ℚ) (hasDigit : Bool) (rest : List Char) :
    Option ℚ :=
  if hasDigit then
    match rest with
    | [] => some m
    | c :: t =>
      if c = 'e' || c = 'E' then
        (parseExpDigits t).map (fun ex => m * 10 ^ ex)
      else none
  else none

/-- The unsigned part of a `Decimal` numeric string:
`digits* (. digits*)? ([eE] [+-]? digits+)?` with at least one digit in
the integer or fractional part, valued exactly. -/
def parseUnsigned (cs : List Char) : Option ℚ :=
  match cs.dropWhile Char.isDigit with
  | '.' :: t =>
    parseAfterMantissa
      ((digitsToNat (cs.takeWhile Char.isDigit) : ℚ) +
        (digitsToNat (t.takeWhile Char.isDigit) : ℚ) /
          10 ^ (t.takeWhile Char.isDigit).length)
      (!(cs.takeWhile Char.isDigit).isEmpty ||
        !(t.takeWhile Char.isDigit).isEmpty)
      (t.dropWhile Char.isDigit)
  | rest =>
    parseAfterMantissa (digitsToNat (cs.takeWhile Char.isDigit) : ℚ)
      (!(cs.takeWhile Char.isDigit).isEmpty) rest

/-- Model of `Decimal(s)` for finite numeric strings, following CPython:
leading and trailing whitespace is stripped and underscores are removed
throughout, then `[+-]? digits* (. digits*)? ([eE] [+-]? digits+)?` is
parsed to its exact rational value (construction from a string never
rounds).  `none` models the `InvalidOperation` raised on any other
string.  On strings of printable ASCII and ASCII whitespace this is
exact against CPython except for the special forms (`Infinity`, `NaN`,
`sNaN`), which construct non-finite values: the one theorem that uses
the `none` direction excludes their letters by hypothesis, and every
other use is of the sound `some` direction. -/
def decimalOfString (s : String) : Option ℚ :=
  match (pyStrip s.data).filter (fun c => c != '_') with
  | [] => none
  | c :: t =>
    if c = '-' then (parseUnsigned t).map (fun q => -q)
    else if c = '+' then parseUnsigned t
    else parseUnsigned (c :: t)

/-- Printable ASCII or ASCII whitespace: the console-input fragment on
which this embedding of `.strip()`, `.upper()` and `Decimal(...)` agrees
exactly with CPython; outside it Python's Unicode whitespace and case
mappings diverge from the ASCII model. -/
def plainAsciiChar (c : Char) : Bool :=
  (32 ≤ c.toNat && c.toNat ≤ 126) || pyStripChar c

/-- `plainAsciiChar` minus the letters `i`/`n` (either case), with one of
which every spelling of `Decimal`'s non-finite specials (`Infinity`,
`Inf`, `NaN`, `sNaN`) is written: on strings of such characters
`Decimal` either constructs a finite value or raises
`InvalidOperation`. -/
def finiteNumeralChar (c : Char) : Bool :=
  plainAsciiChar c && !(c = 'n' || c = 'N' || c = 'i' || c = 'I')

/-- A pool record: the JSON object the node returns as `result[0]`,
as an association list (Python dict) of string keys and string values. -/
abbrev PoolRecord := List (String × String)

/-- Python `dict.get(key, default)` on a `PoolRecord`. -/
def dictGet (pd : PoolRecord) (key dflt : String) : String :=
  match pd.find? (fun p => p.1 == key) with
  | some p => p.2
  | none => dflt

/-- Python `key in dict` on a `PoolRecord`. -/
def hasKey (pd : PoolRecord) (key : String) : Bool :=
  pd.any (fun p => p.1 == key)

/-- Result of `calculate_exchange_rate`: the Python function returns the
pair `(None, None)` (`undefinedRates`) when a normalized balance is zero,
and otherwise the two rates. -/
inductive CalcResult where
  | undefinedRates : CalcResult
  | rates (rate_a_to_b rate_b_to_a : ℚ) : CalcResult
deriving DecidableEq, Repr

/-- Model of `calculate_exchange_rate(pool_data, asset_a_precision, asset_b_precision)`
from `src/simple_bridge.py` lines 55-94.  The outer `Option` is `none`
exactly when `Decimal(balance_a_raw)` or `Decimal(balance_b_raw)` raises,
which the Python function does not catch. -/
def calculate_exchange_rate (pool_data : PoolRecord)
    (asset_a_precision asset_b_precision : ℕ) : Option CalcResult :=
  let balance_a_raw := dictGet pool_data "balance_a" "0"
  let balance_b_raw := dictGet pool_data "balance_b" "0"
  match decimalOfString balance_a_raw, decimalOfString balance_b_raw with
  | some da, some db =>
    let balance_a : ℚ := da / 10 ^ asset_a_precision
    let balance_b : ℚ := db / 10 ^ asset_b_precision
    if balance_a = 0 ∨ balance_b = 0 then
      some CalcResult.undefinedRates
    else
      some (CalcResult.rates (balance_b / balance_a) (balance_a / balance_b))
  | _, _ => none

/-- The JSON-RPC response body, as far as the program inspects it: the
value of the `"result"` key.  `none` models an absent or `null` `result`
(both falsy in `data.get("result")`); a list entry `none` models a `null`
element and `some []` an empty object `\x7b\x7d` (both falsy). -/
structure RpcBody where
  result : Option (List (Option PoolRecord))
deriving DecidableEq, Repr

/-- The observable outcome of the single HTTP POST `get_pool_data` makes
to one endpoint: a `requests` exception (transport error / timeout), or a
response with a status code and optionally parsed JSON body (`none` =
`response.json()` raised on a malformed body). -/
inductive FetchOutcome where
  | transportError : FetchOutcome
  | http (status : ℕ) (body : Option RpcBody) : FetchOutcome
deriving DecidableEq, Repr

/-- The body of the `for api_url in api_urls` loop, lines 25-50: what one
endpoint contributes.  `some r` exactly when the status is 200, the JSON
parses, and `data.get("result") and len(data["result"]) > 0 and
data["result"][0]` is truthy, in which case `r = data["result"][0]`. -/
def tryEndpoint (o : FetchOutcome) : Option PoolRecord :=
  match o with
  | .transportError => none
  | .http status body =>
    if status = 200 then
      match body with
      | some b =>
        match b.result with
        | some (some r :: _) => if r.isEmpty then none else some r
        | _ => none
      | none => none
    else none

/-- Model of `get_pool_data` (lines 14-53) over the list of outcomes of the
configured endpoints, in order: the first endpoint whose `tryEndpoint`
succeeds supplies the record; `none` (Python `None`) if all fail. -/
def get_pool_data (responses : List FetchOutcome) : Option PoolRecord :=
  match responses with
  | [] => none
  | o :: rest =>
    match tryEndpoint o with
    | some r => some r
    | none => get_pool_data rest

/-- The failure conditions the fetch loop skips an endpoint on, as the
spec enumerates them: non-200 status, transport error, malformed JSON,
absent/null/empty `result` array, or `result[0]` null/empty. -/
def endpointFails (o : FetchOutcome) : Prop :=
  match o with
  | .transportError => True
  | .http status body =>
    status ≠ 200 ∨ body = none ∨
      ∃ b, body = some b ∧
        (b.result = none ∨ b.result = some [] ∨
          ∃ tl, b.result = some (none :: tl) ∨
            b.result = some (some [] :: tl))

/-- Round-half-even to an integer: the rounding Python uses when
formatting a `Decimal` with `f"..:.Nf"` (context default `ROUND_HALF_EVEN`). -/
def roundHalfEven (q : ℚ) : ℤ :=
  let f := ⌊q⌋
  let r := q - f
  if r < 1/2 then f
  else if 1/2 < r then f + 1
  else if f % 2 = 0 then f else f + 1

/-- Display rounding `f"..:.dpf"` of a `Decimal` value: round-half-even at
`dp` decimal places. -/
def roundToDp (dp : ℕ) (q : ℚ) : ℚ :=
  (roundHalfEven (q * 10 ^ dp) : ℚ) / 10 ^ dp

/-- The fee multiplier `bridge_rate_multiplier = Decimal("0.975")`, line 152. -/
def bridge_rate_multiplier : ℚ := 975 / 1000

/-- The fee-adjusted bridge quote computed in lines 156-157 / 163-164 as a
pure function of the already-computed base rate and the input amount:
`bridge_exchange_rate = base_rate * 0.975`, `exchanged_amount =
amount_input * bridge_exchange_rate`. -/
def bridge_quote (base_rate amount_input : ℚ) : ℚ × ℚ :=
  let bridge_exchange_rate := base_rate * bridge_rate_multiplier
  (bridge_exchange_rate, amount_input * bridge_exchange_rate)

/-- Python `asset_input.strip().upper()` (line 149) on the ASCII
fragment: strip with `pyStrip`, then uppercase each character.
`Char.toUpper` agrees with Python's `.upper()` on ASCII; Python's
Unicode-only case mappings lie outside the fragment the theorems
quantify over. -/
def stripUpper (s : String) : String :=
  String.mk ((pyStrip s.data).map Char.toUpper)

/-- The externally observable outcome of one run of `main` (lines 96-169).
Constructors record where the run ends and the values it reports:
* `fetchFailed`: `get_pool_data` falsy, "Failed to retrieve pool data", return.
* `calcError`: uncaught `InvalidOperation` inside `calculate_exchange_rate`.
* `ratesUndefined`: rates are `(None, None)`, "Could not calculate", return.
* `inputError`: uncaught `InvalidOperation` from `Decimal(input(...))` on a
  non-numeric amount (line 150), before any bridge computation.
* `invalidAsset`: the "Invalid asset entered" message, no bridge computation.
* `bridged`: a completed quote - the bridge rate, the exact exchanged
  amount, the amount as displayed (rounded to the destination asset's
  display precision), and the destination asset symbol. -/
inductive MainOutcome where
  | fetchFailed : MainOutcome
  | calcError : MainOutcome
  | ratesUndefined : MainOutcome
  | inputError : MainOutcome
  | invalidAsset : MainOutcome
  | bridged (bridge_exchange_rate exchanged_amount displayed_amount : ℚ)
      (dest : String) : MainOutcome
deriving DecidableEq, Repr

/-- Model of `main` (lines 96-169), as a function of the endpoint outcomes and the
two strings the user types.  Precisions are the hardcoded 4 and 2; the
`if not pool_data` truthiness check also catches an empty record.  The
amount is parsed (line 150) before the asset branch, so a non-numeric
amount aborts the run whatever the asset string was. -/
def SimpleBridge.main (responses : List FetchOutcome)
    (asset_raw amount_raw : String) : MainOutcome :=
  match get_pool_data responses with
  | none => .fetchFailed
  | some pool_data =>
    if pool_data.isEmpty then .fetchFailed
    else
      match calculate_exchange_rate pool_data 4 2 with
      | none => .calcError
      | some .undefinedRates => .ratesUndefined
      | some (.rates rate_a_to_b rate_b_to_a) =>
        let asset_input := stripUpper asset_raw
        match decimalOfString amount_raw with
        | none => .inputError
        | some amount_input =>
          if asset_input = "XBTSX.WRAM" then
            let q := bridge_quote rate_b_to_a amount_input
            .bridged q.1 q.2 (roundToDp 4 q.2) "BTWTY.EOS"
          else if asset_input = "BTWTY.EOS" then
            let q := bridge_quote rate_a_to_b amount_input
            .bridged q.1 q.2 (roundToDp 2 q.2) "XBTSX.WRAM"
          else .invalidAsset

/-- Model of `get_single_rate` (lines 171-179).  The outer `Option` is `none` when
`Decimal` raises on a balance string (uncaught); the inner `Option` is the
Python return value: `none` (Python `None`) when the fetch fails, the
record is falsy, or `balance_a` is not positive. -/
def get_single_rate (responses : List FetchOutcome)
    (precision_a precision_b : ℕ) : Option (Option ℚ) :=
  match get_pool_data responses with
  | none => some none
  | some pool_data =>
    if pool_data.isEmpty then some none
    else
      match decimalOfString (dictGet pool_data "balance_a" "0"),
            decimalOfString (dictGet pool_data "balance_b" "0") with
      | some da, some db =>
        let balance_a : ℚ := da / 10 ^ precision_a
        let balance_b : ℚ := db / 10 ^ precision_b
        if 0 < balance_a then some (some (balance_b / balance_a))
        else some none
      | _, _ => none

/-! ### Unfolded defining equations (each proved by `rfl`) -/

theorem calculate_exchange_rate_eq (pd : PoolRecord) (pa pb : ℕ) :
    calculate_exchange_rate pd pa pb =
      match decimalOfString (dictGet pd "balance_a" "0"),
            decimalOfString (dictGet pd "balance_b" "0") with
      | some da, some db =>
        if da / 10 ^ pa = 0 ∨ db / 10 ^ pb = 0 then
          some CalcResult.undefinedRates
        else
          some (CalcResult.rates ((db / 10 ^ pb) / (da / 10 ^ pa))
            ((da / 10 ^ pa) / (db / 10 ^ pb)))
      | _, _ => none := rfl

theorem dictGet_eq (pd : PoolRecord) (key dflt : String) :
    dictGet pd key dflt =
      match pd.find? (fun p => p.1 == key) with
      | some p => p.2
      | none => dflt := rfl

theorem get_pool_data_cons (o : FetchOutcome) (rest : List FetchOutcome) :
    get_pool_data (o :: rest) =
      match tryEndpoint o with
      | some r => some r
      | none => get_pool_data rest := rfl

/-! ### Helper lemmas -/

/-- Inversion for a successful `calculate_exchange_rate`: the rates come
from the parsed balances normalized by the precisions. -/
theorem calculate_rates_shape (pd : PoolRecord) (pa pb : ℕ) (rab rba : ℚ)
    (h : calculate_exchange_rate pd pa pb =
      some (CalcResult.rates rab rba)) :
    ∃ da db, decimalOfString (dictGet pd "balance_a" "0") = some da ∧
      decimalOfString (dictGet pd "balance_b" "0") = some db ∧
      da / 10 ^ pa ≠ 0 ∧ db / 10 ^ pb ≠ 0 ∧
      rab = (db / 10 ^ pb) / (da / 10 ^ pa) ∧
      rba = (da / 10 ^ pa) / (db / 10 ^ pb) := by
  rw [calculate_exchange_rate_eq] at h
  split at h
  · rename_i da db hA hB
    split at h
    · exact absurd h (by simp)
    · rename_i h0
      push_neg at h0
      simp only [Option.some.injEq, CalcResult.rates.injEq] at h
      exact ⟨da, db, hA, hB, h0.1, h0.2, h.1.symm, h.2.symm⟩
  · exact absurd h (by simp)

/-- A record delivered by one endpoint is never the empty dict. -/
theorem tryEndpoint_nonempty (o : FetchOutcome) (r : PoolRecord)
    (h : tryEndpoint o = some r) : r.isEmpty = false := by
  unfold tryEndpoint at h
  split at h
  · exact absurd h (by simp)
  · split at h
    · split at h
      · split at h
        · split at h
          · exact absurd h (by simp)
          · rename_i he
            obtain rfl : _ = r := Option.some.inj h
            simpa using he
        · exact absurd h (by simp)
      · exact absurd h (by simp)
    · exact absurd h (by simp)

/-- A record delivered by `get_pool_data` is never the empty dict. -/
theorem get_pool_data_nonempty (responses : List FetchOutcome)
    (pd : PoolRecord) (h : get_pool_data responses = some pd) :
    pd.isEmpty = false := by
  induction responses with
  | nil => exact absurd h (by simp [get_pool_data])
  | cons o rest ih =>
    rw [get_pool_data_cons] at h
    rcases ho : tryEndpoint o with _ | r <;> rw [ho] at h
    · exact ih h
    · obtain rfl : r = pd := Option.some.inj h
      exact tryEndpoint_nonempty o r ho

/-- A key absent from the record makes `dict.get` return the default. -/
theorem dictGet_of_not_hasKey (pd : PoolRecord) (key dflt : String)
    (h : hasKey pd key = false) : dictGet pd key dflt = dflt := by
  rw [dictGet_eq]
  rcases hf : pd.find? (fun p => p.1 == key) with _ | p <;> rw [hf]
  · have hp := List.find?_some hf
    have hmem := List.mem_of_find?_eq_some hf
    unfold hasKey at h
    rw [List.any_eq_false] at h
    exact absurd hp (h p hmem)

/-! ### Claims -/

/-- C1: for every pool record whose two normalized balances are both
non-zero, the two rates returned by `calculate_exchange_rate` satisfy
`rate_a_to_b * rate_b_to_a = 1`.  In the exact-rational model of `Decimal`
the product is exactly `1`, so in particular it is `1` up to rounding at
the configured 28-digit precision. -/
theorem rates_product_one (pd : PoolRecord) (pa pb : ℕ) (rab rba : ℚ)
    (h : calculate_exchange_rate pd pa pb =
      some (CalcResult.rates rab rba)) : rab * rba = 1 := by
  obtain ⟨da, db, _, _, hA0, hB0, hrab, hrba⟩ :=
    calculate_rates_shape pd pa pb rab rba h
  subst hrab hrba
  rw [div_mul_div_comm, mul_comm (da / 10 ^ pa)]
  exact div_self (mul_ne_zero hB0 hA0)

/-- C1 witness: the record with raw balances 2000 and 300 at precisions
4 and 2 yields rates 15 and 1/15, and their product is 1. -/
theorem rates_product_one_witness : (15 : ℚ) * (1 / 15) = 1 :=
  rates_product_one [("balance_a", "2000"), ("balance_b", "300")] 4 2
    15 (1 / 15) (by with_unfolding_all decide)

/-- C4: whenever either normalized balance is zero (the balance strings
parsing, so the extraction itself raises nothing), `calculate_exchange_rate`
returns the defined value `(None, None)` - not a division error and not an
infinite value. -/
theorem zero_balance_undefined (pd : PoolRecord) (pa pb : ℕ) (da db : ℚ)
    (hA : decimalOfString (dictGet pd "balance_a" "0") = some da)
    (hB : decimalOfString (dictGet pd "balance_b" "0") = some db)
    (h0 : da / 10 ^ pa = 0 ∨ db / 10 ^ pb = 0) :
    calculate_exchange_rate pd pa pb = some CalcResult.undefinedRates := by
  rw [calculate_exchange_rate_eq, hA, hB]
  exact if_pos h0

/-- C4 witness: raw `balance_a = "0"` normalizes to zero and the result is
the defined `(None, None)`. -/
theorem zero_balance_undefined_witness :
    calculate_exchange_rate [("balance_a", "0"), ("balance_b", "1000")] 4 2
      = some CalcResult.undefinedRates :=
  zero_balance_undefined [("balance_a", "0"), ("balance_b", "1000")] 4 2
    0 1000 (by with_unfolding_all decide) (by with_unfolding_all decide)
    (Or.inl (by norm_num))

/-- C6: with both normalized balances non-zero, `calculate_exchange_rate`
returns exactly `rate_a_to_b = amountB / amountA` and
`rate_b_to_a = amountA / amountB` where `amountA = balanceA / 10 ^ pa`
and `amountB = balanceB / 10 ^ pb`. -/
theorem rates_formula (pd : PoolRecord) (pa pb : ℕ) (da db : ℚ)
    (hA : decimalOfString (dictGet pd "balance_a" "0") = some da)
    (hB : decimalOfString (dictGet pd "balance_b" "0") = some db)
    (hA0 : da / 10 ^ pa ≠ 0) (hB0 : db / 10 ^ pb ≠ 0) :
    calculate_exchange_rate pd pa pb =
      some (CalcResult.rates ((db / 10 ^ pb) / (da / 10 ^ pa))
        ((da / 10 ^ pa) / (db / 10 ^ pb))) := by
  rw [calculate_exchange_rate_eq, hA, hB]
  exact if_neg (by tauto)

/-- C6 witness: raw balances 1000 (precision 4, amount 0.1) and 1000
(precision 2, amount 10) give `rate_a_to_b = 100` and
`rate_b_to_a = 0.01`. -/
theorem rates_formula_witness :
    calculate_exchange_rate [("balance_a", "1000"), ("balance_b", "1000")]
      4 2 = some (CalcResult.rates 100 (1 / 100)) := by
  have h := rates_formula [("balance_a", "1000"), ("balance_b", "1000")]
    4 2 1000 1000 (by with_unfolding_all decide)
    (by with_unfolding_all decide) (by norm_num) (by norm_num)
  rw [h]
  norm_num

/-- An endpoint contributes nothing exactly under the spec's enumerated
failure conditions. -/
theorem tryEndpoint_eq_none_iff (o : FetchOutcome) :
    tryEndpoint o = none ↔ endpointFails o := by
  rcases o with _ | ⟨status, body⟩
  · simp [tryEndpoint, endpointFails]
  · unfold tryEndpoint endpointFails
    by_cases hs : status = 200
    · subst hs
      rcases body with _ | b
      · simp
      · rcases hres : b.result with _ | xs
        · simp [hres]
        · rcases xs with _ | ⟨e, tl⟩
          · simp [hres]
          · rcases e with _ | r0
            · simp [hres]
            · by_cases he : r0.isEmpty
              · obtain rfl : r0 = [] := by simpa using he
                simp [hres]
              · have hne : r0 ≠ [] := by simpa using he
                simp [hres, he, hne]
    · simp [if_neg hs, hs]

/-- C2: the fetch returns the `result[0]` record of the first endpoint
that answers HTTP 200 with well-formed JSON and a non-empty `result[0]`,
unchanged and independent of all later endpoints; every earlier endpoint
satisfying one of the enumerated failure conditions (non-200 status,
transport error, malformed JSON, absent/null/empty `result`, null/empty
`result[0]`) is skipped - and those conditions are exactly the ones an
endpoint is skipped on. -/
theorem fetch_first_success :
    (∀ o : FetchOutcome, tryEndpoint o = none ↔ endpointFails o) ∧
    ∀ (pre post : List FetchOutcome) (good : FetchOutcome) (r : PoolRecord),
      (∀ o ∈ pre, endpointFails o) → tryEndpoint good = some r →
      get_pool_data (pre ++ good :: post) = some r := by
  refine ⟨tryEndpoint_eq_none_iff, ?_⟩
  intro pre post good r hpre hgood
  induction pre with
  | nil => rw [List.nil_append, get_pool_data_cons, hgood]
  | cons o rest ih =>
    rw [List.cons_append, get_pool_data_cons,
      (tryEndpoint_eq_none_iff o).mpr (hpre o (by simp))]
    exact ih fun x hx => hpre x (by simp [hx])

/-- C2 witness: the first endpoint answers HTTP 500, the second answers
HTTP 200 with a valid non-empty `result[0]`; the fetch returns the second
endpoint's record unchanged. -/
theorem fetch_first_success_witness :
    get_pool_data [FetchOutcome.http 500 none,
      FetchOutcome.http 200 (some (RpcBody.mk (some [some
        [("balance_a", "1000"), ("balance_b", "1000")]])))] =
      some [("balance_a", "1000"), ("balance_b", "1000")] :=
  fetch_first_success.2 [FetchOutcome.http 500 none] []
    (FetchOutcome.http 200 (some (RpcBody.mk (some [some
      [("balance_a", "1000"), ("balance_b", "1000")]]))))
    [("balance_a", "1000"), ("balance_b", "1000")]
    (by
      intro o ho
      simp only [List.mem_singleton] at ho
      subst ho
      exact Or.inl (by decide))
    (by with_unfolding_all decide)

/-- The defining equation of `SimpleBridge.main`, with the `let`-bound
locals expanded. -/
theorem main_eq (responses : List FetchOutcome)
    (asset_raw amount_raw : String) :
    SimpleBridge.main responses asset_raw amount_raw =
      match get_pool_data responses with
      | none => MainOutcome.fetchFailed
      | some pool_data =>
        if pool_data.isEmpty then MainOutcome.fetchFailed
        else
          match calculate_exchange_rate pool_data 4 2 with
          | none => MainOutcome.calcError
          | some CalcResult.undefinedRates => MainOutcome.ratesUndefined
          | some (CalcResult.rates rab rba) =>
            match decimalOfString amount_raw with
            | none => MainOutcome.inputError
            | some amount_input =>
              if stripUpper asset_raw = "XBTSX.WRAM" then
                MainOutcome.bridged (rba * bridge_rate_multiplier)
                  (amount_input * (rba * bridge_rate_multiplier))
                  (roundToDp 4 (amount_input * (rba * bridge_rate_multiplier)))
                  "BTWTY.EOS"
              else if stripUpper asset_raw = "BTWTY.EOS" then
                MainOutcome.bridged (rab * bridge_rate_multiplier)
                  (amount_input * (rab * bridge_rate_multiplier))
                  (roundToDp 2 (amount_input * (rab * bridge_rate_multiplier)))
                  "XBTSX.WRAM"
              else MainOutcome.invalidAsset := rfl

/-- C3: when every configured endpoint fails, `get_pool_data` returns
`None`, and `main` stops at "Failed to retrieve pool data" without any
rate calculation. -/
theorem all_fail_no_calculation (responses : List FetchOutcome)
    (asset_raw amount_raw : String)
    (h : ∀ o ∈ responses, endpointFails o) :
    get_pool_data responses = none ∧
      SimpleBridge.main responses asset_raw amount_raw =
        MainOutcome.fetchFailed := by
  have hg : get_pool_data responses = none := by
    induction responses with
    | nil => rfl
    | cons o rest ih =>
      rw [get_pool_data_cons,
        (tryEndpoint_eq_none_iff o).mpr (h o (by simp))]
      exact ih fun x hx => h x (by simp [hx])
  refine ⟨hg, ?_⟩
  rw [main_eq, hg]

/-- C3 witness: with one unreachable endpoint and one answering HTTP 500,
the fetch yields `None` and `main` performs no calculation. -/
theorem all_fail_no_calculation_witness :
    get_pool_data [FetchOutcome.transportError,
        FetchOutcome.http 500 none] = none ∧
      SimpleBridge.main [FetchOutcome.transportError,
        FetchOutcome.http 500 none] "XBTSX.WRAM" "100" =
        MainOutcome.fetchFailed :=
  all_fail_no_calculation [FetchOutcome.transportError,
    FetchOutcome.http 500 none] "XBTSX.WRAM" "100"
    (by
      intro o ho
      simp only [List.mem_cons, List.mem_singleton] at ho
      rcases ho with rfl | rfl | h
      · exact True.intro
      · exact Or.inl (by decide)
      · exact absurd h (by simp))

/-- A digit is not stripped as whitespace. -/
theorem isDigit_not_pyStripChar (c : Char) (h : c.isDigit = true) :
    pyStripChar c = false := by
  simp [Char.isDigit, UInt32.le_def, BitVec.le_def] at h
  simp [pyStripChar, Char.toNat, UInt32.toNat]
  omega

/-- A digit is not an underscore. -/
theorem isDigit_ne_underscore (c : Char) (h : c.isDigit = true) :
    (c != '_') = true := by
  simp [Char.isDigit, UInt32.le_def, BitVec.le_def] at h
  simp only [bne_iff_ne, ne_eq]
  rintro rfl
  simp at h

theorem dropWhile_eq_self_of_false (p : Char → Bool) (cs : List Char)
    (h : ∀ c ∈ cs, p c = false) : cs.dropWhile p = cs := by
  cases cs with
  | nil => rfl
  | cons c t =>
    rw [List.dropWhile_cons, h c (by simp)]
    simp

/-- Stripping changes nothing on an all-digit string. -/
theorem pyStrip_digits (cs : List Char) (h2 : ∀ c ∈ cs, c.isDigit) :
    pyStrip cs = cs := by
  have hs : ∀ c ∈ cs, pyStripChar c = false := fun c hc =>
    isDigit_not_pyStripChar c (h2 c hc)
  unfold pyStrip
  rw [dropWhile_eq_self_of_false _ _ hs,
    dropWhile_eq_self_of_false _ _
      (fun c hc => hs c (List.mem_reverse.mp hc)),
    List.reverse_reverse]

/-- A non-empty all-digit string parses to exactly its integer value. -/
theorem parseUnsigned_digits (cs : List Char) (h1 : cs ≠ [])
    (h2 : ∀ c ∈ cs, c.isDigit) :
    parseUnsigned cs = some (digitsToNat cs : ℚ) := by
  have ht : cs.takeWhile Char.isDigit = cs :=
    List.takeWhile_eq_self_iff.mpr h2
  have hd : cs.dropWhile Char.isDigit = [] :=
    List.dropWhile_eq_nil_iff.mpr h2
  have hne : cs.isEmpty = false := by simpa using h1
  unfold parseUnsigned
  rw [hd, ht]
  simp [parseAfterMantissa, hne]

theorem decimalOfString_eq (s : String) :
    decimalOfString s =
      match (pyStrip s.data).filter (fun c => c != '_') with
      | [] => none
      | c :: t =>
        if c = '-' then (parseUnsigned t).map (fun q => -q)
        else if c = '+' then parseUnsigned t
        else parseUnsigned (c :: t) := rfl

/-- Parsing a non-empty all-digit string with `Decimal` gives exactly the
integer the digits denote: no rounding, no float conversion. -/
theorem decimalOfString_digits (cs : List Char) (h1 : cs ≠ [])
    (h2 : ∀ c ∈ cs, c.isDigit) :
    decimalOfString (String.mk cs) = some (digitsToNat cs : ℚ) := by
  have hstrip : pyStrip (String.mk cs).data = cs := pyStrip_digits cs h2
  have hfilter : cs.filter (fun c => c != '_') = cs :=
    List.filter_eq_self.mpr fun c hc =>
      by simpa using isDigit_ne_underscore c (h2 c hc)
  rw [decimalOfString_eq, hstrip, hfilter]
  rcases cs with _ | ⟨c, t⟩
  · exact absurd rfl h1
  · have hc : c.isDigit = true := h2 c (by simp)
    have hc1 : c ≠ '-' := by rintro rfl; exact absurd hc (by decide)
    have hc2 : c ≠ '+' := by rintro rfl; exact absurd hc (by decide)
    simp only [if_neg hc1, if_neg hc2]
    exact parseUnsigned_digits (c :: t) (by simp) h2

/-- C5: for integer-as-string balances the normalization inside
`calculate_exchange_rate` is exact decimal arithmetic: the amounts are
exactly `balanceA / 10 ^ precisionA` and `balanceB / 10 ^ precisionB`
(as rationals, with `balanceA`/`balanceB` the integers the digit strings
denote), and the whole result is determined by those exact amounts. -/
theorem normalization_exact (pd : PoolRecord) (pa pb : ℕ)
    (a b : List Char)
    (ha : dictGet pd "balance_a" "0" = String.mk a)
    (hb : dictGet pd "balance_b" "0" = String.mk b)
    (ha1 : a ≠ []) (ha2 : ∀ c ∈ a, c.isDigit)
    (hb1 : b ≠ []) (hb2 : ∀ c ∈ b, c.isDigit) :
    calculate_exchange_rate pd pa pb =
      (if (digitsToNat a : ℚ) / 10 ^ pa = 0 ∨
          (digitsToNat b : ℚ) / 10 ^ pb = 0 then
        some CalcResult.undefinedRates
      else
        some (CalcResult.rates
          (((digitsToNat b : ℚ) / 10 ^ pb) / ((digitsToNat a : ℚ) / 10 ^ pa))
          (((digitsToNat a : ℚ) / 10 ^ pa) / ((digitsToNat b : ℚ) / 10 ^ pb)))) := by
  rw [calculate_exchange_rate_eq, ha, hb,
    decimalOfString_digits a ha1 ha2, decimalOfString_digits b hb1 hb2]

/-- C5 witness: `balance_a = "123450000"` at precision 4 normalizes to
exactly 12345, and the rates follow from the exact amounts 12345 and 1. -/
theorem normalization_exact_witness :
    calculate_exchange_rate
        [("balance_a", "123450000"), ("balance_b", "100")] 4 2 =
      some (CalcResult.rates (1 / 12345) 12345) ∧
    (123450000 : ℚ) / 10 ^ (4 : ℕ) = 12345 := by
  constructor
  · have h := normalization_exact
      [("balance_a", "123450000"), ("balance_b", "100")] 4 2
      "123450000".data "100".data (by decide) (by decide)
      (by decide) (by decide) (by decide) (by decide)
    have ha : digitsToNat ("123450000".data) = 123450000 := by decide
    have hb : digitsToNat ("100".data) = 100 := by decide
    rw [h, ha, hb, if_neg (by push_neg; constructor <;> norm_num)]
    simp only [Option.some.injEq, CalcResult.rates.injEq]
    constructor <;> norm_num
  · norm_num

/-- C7: the bridge quote is the pure function
`bridge_exchange_rate = base_rate * 0.975`,
`exchanged_amount = amount * bridge_exchange_rate`, and `main` emits
exactly this quote of the already-computed rate for the `XBTSX.WRAM`
direction (base rate `rate_b_to_a`, output displayed rounded to the
destination A-asset's display precision of 4 decimal places). -/
theorem bridge_quote_correct :
    (∀ base_rate amount_input : ℚ,
      bridge_quote base_rate amount_input =
        (base_rate * (975 / 1000),
         amount_input * (base_rate * (975 / 1000)))) ∧
    ∀ (responses : List FetchOutcome) (asset_raw amount_raw : String)
      (pd : PoolRecord) (rab rba amount : ℚ),
      get_pool_data responses = some pd →
      calculate_exchange_rate pd 4 2 = some (CalcResult.rates rab rba) →
      decimalOfString amount_raw = some amount →
      stripUpper asset_raw = "XBTSX.WRAM" →
      SimpleBridge.main responses asset_raw amount_raw =
        MainOutcome.bridged (bridge_quote rba amount).1
          (bridge_quote rba amount).2
          (roundToDp 4 (bridge_quote rba amount).2) "BTWTY.EOS" := by
  constructor
  · intro base_rate amount_input
    rfl
  · intro responses asset_raw amount_raw pd rab rba amount hf hc hq ha
    have hne : pd.isEmpty = false := get_pool_data_nonempty responses pd hf
    rw [main_eq, hf]
    simp only [hne, hc, hq, ha, Bool.false_eq_true, if_false, if_true]
    rfl

/-- C7 witness: with `rate_b_to_a = 0.01` and input amount 100 of the
B-asset XBTSX.WRAM, the bridge rate is 0.00975 and the output is 0.975
(displayed unchanged, 0.9750, at 4 decimal places). -/
theorem bridge_quote_correct_witness :
    SimpleBridge.main
        [FetchOutcome.http 200 (some (RpcBody.mk (some [some
          [("balance_a", "1000"), ("balance_b", "1000")]])))]
        "XBTSX.WRAM" "100" =
      MainOutcome.bridged (975 / 100000) (975 / 1000) (975 / 1000)
        "BTWTY.EOS" := by
  have h := bridge_quote_correct.2
    [FetchOutcome.http 200 (some (RpcBody.mk (some [some
      [("balance_a", "1000"), ("balance_b", "1000")]])))]
    "XBTSX.WRAM" "100"
    [("balance_a", "1000"), ("balance_b", "1000")] 100 (1 / 100) 100
    (by decide) (by with_unfolding_all decide)
    (by with_unfolding_all decide) (by decide)
  rw [h]
  simp only [MainOutcome.bridged.injEq]
  unfold bridge_quote bridge_rate_multiplier roundToDp roundHalfEven
  norm_num

/-- C8 counterexample: with a successful fetch and a sound pool record,
the non-numeric amount "abc" ends the run in the uncaught
`InvalidOperation` raised by `Decimal(input(...))` (line 150), not in the
handled report - the only handled invalid-input path in `main` is the
invalid-asset message (`invalidAsset`). -/
theorem invalid_amount_uncaught :
    SimpleBridge.main
        [FetchOutcome.http 200 (some (RpcBody.mk (some [some
          [("balance_a", "1000"), ("balance_b", "1000")]])))]
        "XBTSX.WRAM" "abc" = MainOutcome.inputError ∧
      MainOutcome.inputError ≠ MainOutcome.invalidAsset := by
  constructor
  · with_unfolding_all decide
  · decide

/-- C8 (amended), for ASCII console input - the fragment on which the
embedding of `.strip().upper()` and `Decimal` is exact against CPython
(see `plainAsciiChar` / `finiteNumeralChar`; the two fragment hypotheses
delimit what is asserted, the model itself does not inspect them): once
the run reaches the interactive stage, an unrecognized (stripped,
uppercased) asset symbol whose amount parses is reported with the
"Invalid asset entered" message and no bridge computation is performed;
an amount `Decimal` rejects instead aborts with the uncaught exception
from `Decimal(input(...))` (line 150), before the asset check - also
with no bridge computation, but not via a handled message. -/
theorem invalid_input_handling (responses : List FetchOutcome)
    (asset_raw amount_raw : String) (pd : PoolRecord) (rab rba : ℚ)
    (hf : get_pool_data responses = some pd)
    (hc : calculate_exchange_rate pd 4 2 =
      some (CalcResult.rates rab rba)) :
    (amount_raw.data.all finiteNumeralChar = true →
      decimalOfString amount_raw = none →
      SimpleBridge.main responses asset_raw amount_raw =
        MainOutcome.inputError) ∧
    ∀ amount, decimalOfString amount_raw = some amount →
      asset_raw.data.all plainAsciiChar = true →
      stripUpper asset_raw ≠ "XBTSX.WRAM" →
      stripUpper asset_raw ≠ "BTWTY.EOS" →
      SimpleBridge.main responses asset_raw amount_raw =
        MainOutcome.invalidAsset := by
  have hne : pd.isEmpty = false := get_pool_data_nonempty responses pd hf
  constructor
  · intro hfrag hq
    rw [main_eq, hf]
    simp only [hne, hc, hq, Bool.false_eq_true, if_false]
  · intro amount hq hfrag h1 h2
    rw [main_eq, hf]
    simp only [hne, hc, hq, Bool.false_eq_true, if_false, if_neg h1,
      if_neg h2]

/-- C8 (amended) witness: asset "DOGE" with the numeric amount "5" is
reported as an invalid asset, with no bridge computation. -/
theorem invalid_input_handling_witness :
    SimpleBridge.main
        [FetchOutcome.http 200 (some (RpcBody.mk (some [some
          [("balance_a", "1000"), ("balance_b", "1000")]])))]
        "DOGE" "5" = MainOutcome.invalidAsset :=
  (invalid_input_handling
    [FetchOutcome.http 200 (some (RpcBody.mk (some [some
      [("balance_a", "1000"), ("balance_b", "1000")]])))]
    "DOGE" "5" [("balance_a", "1000"), ("balance_b", "1000")]
    100 (1 / 100) (by decide) (by with_unfolding_all decide)).2
    5 (by with_unfolding_all decide) (by decide) (by decide) (by decide)

/-- C9 counterexample: a record missing `balance_a` whose present
`balance_b` string does not parse makes `calculate_exchange_rate` raise
`InvalidOperation` (line 78) instead of returning the Undefined result,
so a record lacking a balance field does not always yield `(None, None)`. -/
theorem missing_balance_parse_error :
    calculate_exchange_rate [("balance_b", "abc")] 4 2 = none ∧
      (none : Option CalcResult) ≠ some CalcResult.undefinedRates := by
  constructor
  · with_unfolding_all decide
  · decide

/-- C9 (amended): a record missing `balance_a` (resp. `balance_b`) has
the string "0" substituted by `dict.get`, so whenever the other balance
string parses as a decimal - in particular whenever it is also missing -
the result is the Undefined value `(None, None)`, with no lookup error. -/
theorem missing_balance_undefined (pd : PoolRecord) (pa pb : ℕ) :
    (hasKey pd "balance_a" = false →
      ∀ db, decimalOfString (dictGet pd "balance_b" "0") = some db →
        calculate_exchange_rate pd pa pb =
          some CalcResult.undefinedRates) ∧
    (hasKey pd "balance_b" = false →
      ∀ da, decimalOfString (dictGet pd "balance_a" "0") = some da →
        calculate_exchange_rate pd pa pb =
          some CalcResult.undefinedRates) := by
  constructor
  · intro hk db hB
    have hA : decimalOfString (dictGet pd "balance_a" "0") = some 0 := by
      rw [dictGet_of_not_hasKey pd "balance_a" "0" hk]
      with_unfolding_all decide
    rw [calculate_exchange_rate_eq, hA, hB]
    exact if_pos (Or.inl (by norm_num))
  · intro hk da hA
    have hB : decimalOfString (dictGet pd "balance_b" "0") = some 0 := by
      rw [dictGet_of_not_hasKey pd "balance_b" "0" hk]
      with_unfolding_all decide
    rw [calculate_exchange_rate_eq, hA, hB]
    exact if_pos (Or.inr (by norm_num))

/-- C9 (amended) witness: a record with only a parseable `balance_b`
yields the Undefined result. -/
theorem missing_balance_undefined_witness :
    calculate_exchange_rate [("balance_b", "1000")] 4 2 =
      some CalcResult.undefinedRates :=
  (missing_balance_undefined [("balance_b", "1000")] 4 2).1 (by decide)
    1000 (by with_unfolding_all decide)

theorem get_single_rate_eq (responses : List FetchOutcome) (pa pb : ℕ) :
    get_single_rate responses pa pb =
      match get_pool_data responses with
      | none => some none
      | some pool_data =>
        if pool_data.isEmpty then some none
        else
          match decimalOfString (dictGet pool_data "balance_a" "0"),
                decimalOfString (dictGet pool_data "balance_b" "0") with
          | some da, some db =>
            if 0 < da / 10 ^ pa then
              some (some ((db / 10 ^ pb) / (da / 10 ^ pa)))
            else some none
          | _, _ => none := rfl

/-- C10: `get_single_rate` guards only `balance_a`: on fetch failure it
returns `None`; on a fetched record whose balances parse it returns the
quotient `balance_b / balance_a` of the normalized amounts whenever
normalized `balance_a` is positive - in particular `0`, not `None`, when
`balance_b` is zero - and `None` whenever normalized `balance_a` is not
positive. -/
theorem single_rate_guard (responses : List FetchOutcome) (pa pb : ℕ) :
    (get_pool_data responses = none →
      get_single_rate responses pa pb = some none) ∧
    ∀ pd da db, get_pool_data responses = some pd →
      decimalOfString (dictGet pd "balance_a" "0") = some da →
      decimalOfString (dictGet pd "balance_b" "0") = some db →
      ((0 < da / 10 ^ pa →
        get_single_rate responses pa pb =
          some (some ((db / 10 ^ pb) / (da / 10 ^ pa)))) ∧
       (da / 10 ^ pa ≤ 0 →
        get_single_rate responses pa pb = some none) ∧
       (db = 0 → 0 < da / 10 ^ pa →
        get_single_rate responses pa pb = some (some 0))) := by
  constructor
  · intro h
    rw [get_single_rate_eq, h]
  · intro pd da db hf hA hB
    have hne : pd.isEmpty = false := get_pool_data_nonempty responses pd hf
    refine ⟨?_, ?_, ?_⟩
    · intro hpos
      rw [get_single_rate_eq, hf]
      simp only [hne, Bool.false_eq_true, if_false, hA, hB, if_pos hpos]
    · intro hle
      rw [get_single_rate_eq, hf]
      simp only [hne, Bool.false_eq_true, if_false, hA, hB,
        if_neg (not_lt.mpr hle)]
    · intro hz hpos
      subst hz
      rw [get_single_rate_eq, hf]
      simp only [hne, Bool.false_eq_true, if_false, hA, hB, if_pos hpos,
        zero_div]

/-- C10 witness: a fetched record with `balance_b = "0"` and positive
`balance_a` yields the rate `0.0`, not `None`. -/
theorem single_rate_guard_witness :
    get_single_rate
        [FetchOutcome.http 200 (some (RpcBody.mk (some [some
          [("balance_a", "1000"), ("balance_b", "0")]])))] 4 2 =
      some (some 0) := by
  have h := (single_rate_guard
    [FetchOutcome.http 200 (some (RpcBody.mk (some [some
      [("balance_a", "1000"), ("balance_b", "0")]])))] 4 2).2
    [("balance_a", "1000"), ("balance_b", "0")] 1000 0
    (by decide) (by with_unfolding_all decide)
    (by with_unfolding_all decide)
  exact h.2.2 rfl (by norm_num)
